import Mathlib

/-!
Verification of `extras/AFC_functions.py` (AFC Klipper add-on).

Shallow embedding of the pure decision logic of the module:

* `set_bowden_length` embeds the value computation of
  `afcFunction.cmd_SET_BOWDEN_LENGTH` (source lines 493-516);
* `resolve_set_bowden_hub` embeds the hub-resolution branch of the same
  command, including the read of the attribute `self.current`, which is
  never assigned on `afcFunction` (only `printer`, `errorLog`, `pause`,
  `AFC` and `logger` are);
* `calibrate_bowden_section` embeds the Bowden branch of
  `afcFunction.cmd_CALIBRATE_AFC` (source lines 450-471);
* `calibrate_all` embeds the `LANE=all` distance-calibration loop of
  `cmd_CALIBRATE_AFC` (source lines 421-427);
* `ConfigRewrite` and its helpers embed `afcFunction.ConfigRewrite`
  (source lines 59-100).

Strings of the Python module are represented as `String` (identifiers,
messages) or `List Char` (file lines manipulated character-wise);
the numeric Bowden lengths, handled by Python floats but only ever added
or replaced here, are represented as `Int`.
-/

namespace AFC

/-! ## SET_BOWDEN_LENGTH (source lines 473-522) -/

/-- One hub object: `config_bowden_length` is the persisted configuration
baseline, `afc_bowden_length` is the current working value. -/
structure HubState where
  config_bowden_length : Int
  afc_bowden_length : Int
deriving DecidableEq

/-- Classification of the `LENGTH` parameter exactly as the source tests it:
`None` (omitted), empty after `strip()` (blank), first character `+` or `-`
(a signed relative number, carried with its sign), otherwise a bare number. -/
inductive LengthParam
  | omitted
  | blank
  | signedRel (n : Int)
  | bare (x : Int)
deriving DecidableEq

/-- Value computation of `cmd_SET_BOWDEN_LENGTH` (source lines 504-516).
Source line 505 assigns `config_bowden = CUR_HUB.afc_bowden_length`:
despite its name the local holds the previous working value, and the
relative branch adds to it. -/
def set_bowden_length (hub : HubState) (p : LengthParam) : HubState :=
  let config_bowden := hub.afc_bowden_length
  let bowden_length :=
    match p with
    | .omitted => hub.config_bowden_length
    | .blank => hub.config_bowden_length
    | .signedRel n => config_bowden + n
    | .bare x => x
  { hub with afc_bowden_length := bowden_length }

/-- Attributes ever assigned on the `afcFunction` instance
(`__init__`, source lines 20-26, and `handle_connect`, lines 47-57). -/
def afcFunction_attrs : List String :=
  ["printer", "errorLog", "pause", "AFC", "logger"]

/-- Outcome of the hub-resolution prologue of `cmd_SET_BOWDEN_LENGTH`. -/
inductive HubResolution
  | useHub (hub : String)
  | laneNotLoadedMessage
  | attributeError
deriving DecidableEq

/-- Hub resolution of `cmd_SET_BOWDEN_LENGTH` (source lines 493-502).
When `HUB` is supplied it is used directly.  Otherwise the source reads
`self.current` — in the body of the first branch (line 498) when a lane is
loaded, or in the `elif` condition itself (line 500) when none is — and
`current` is not among `afcFunction_attrs`, so the read raises an
unhandled `AttributeError` in both cases.  `currentLaneHub` stands for
`self.AFC.lanes[...].hub_obj.name`, the value line 499 would produce if the
attribute existed. -/
def resolve_set_bowden_hub (hubParam : Option String) (afc_current : Option String)
    (currentLaneHub : String) : HubResolution :=
  match hubParam with
  | some h => .useHub h
  | none =>
    if afc_current.isSome then
      if afcFunction_attrs.contains "current" then .useHub currentLaneHub
      else .attributeError
    else
      if afcFunction_attrs.contains "current" then .laneNotLoadedMessage
      else .attributeError

/-! ## Bowden branch of CALIBRATE_AFC (source lines 450-471) -/

/-- Sensor configuration of the lane selected for Bowden calibration:
`tool_start` and `tool_end` are the extruder's pre- and post-tool sensors
(`CUR_LANE.extruder_obj.tool_start` / `.tool_end`), `buffer_obj` is the
lane's buffer. -/
structure LaneSensors where
  tool_start : Option String
  tool_end : Option String
  buffer_obj : Option String
deriving DecidableEq

/-- Outcome of the Bowden branch: either the calibration pass ran and the
lane ends with the given sensor configuration, or the branch returned with
the configuration-insufficiency error of source line 461. -/
inductive BowdenCalOutcome
  | calibrated (finalSensors : LaneSensors)
  | configError (msg : String)
deriving DecidableEq

/-- Bowden branch of `cmd_CALIBRATE_AFC` (source lines 450-471).
`doPass` abstracts `CUR_LANE.unit_obj.calibrate_bowden` (an external
collaborator that measures and may update the hub's working length,
reporting success or failure); the result triple carries the outcome, the
final hub working length, and the number of calibration passes run.
The source substitutes the buffer for `tool_start` only when
`tool_start is None and tool_end is not None and buffer_obj is not None`
(line 455); in every other case — including a configured `tool_start` —
control reaches the `else` of line 459 and the command errors out. -/
def calibrate_bowden_section (doPass : LaneSensors → Int → Int × Bool)
    (ls : LaneSensors) (hubLen : Int) : BowdenCalOutcome × Int × Nat :=
  if ls.tool_start.isNone && ls.tool_end.isSome && ls.buffer_obj.isSome then
    let substituted := { ls with tool_start := some "buffer" }
    let r := doPass substituted hubLen
    (.calibrated { substituted with tool_start := none }, r.1, 1)
  else
    (.configError "Cannot calibrate with only post extruder sensor and no turtleneck buffer defined in config",
      hubLen, 0)

/-! ## LANE=all distance-calibration loop (source lines 421-427) -/

/-- The `for CUR_LANE in self.AFC.lanes.values()` loop of
`cmd_CALIBRATE_AFC` with `LANE=all`: `cal` abstracts
`CUR_LANE.unit_obj.calibrate_lane(CUR_LANE, tol)` returning
`(checked, msg)`.  The result is the list of lanes whose pass was run, the
final `checked` status, and the accumulated `cal_msg`.  On the first lane
with `checked` false the source returns at once (line 426), before
appending that lane's message. -/
def calibrate_all (cal : String → Bool × String) : List String → String → List String × Bool × String
  | [], acc => ([], true, acc)
  | l :: rest, acc =>
    let r := cal l
    if r.1 then
      let s := calibrate_all cal rest (acc ++ r.2)
      (l :: s.1, s.2.1, s.2.2)
    else ([l], false, acc)

/-- Left fold appending the per-lane messages of `cal` to an accumulator,
mirroring `cal_msg += msg`. -/
def foldMsgs (cal : String → Bool × String) : String → List String → String
  | acc, [] => acc
  | acc, l :: ls => foldMsgs cal (acc ++ (cal l).2) ls

/-! ## ConfigRewrite (source lines 59-100)

A configuration file is a list of lines, each line a `List Char` including
its terminating newline (Python's `for line in f`); a directory is a list
of `(filename, lines)` pairs, restricted to the `.cfg` regular files, in
`os.listdir` order. -/

/-- Python's `\s` character class. -/
def isPySpace (c : Char) : Bool :=
  c = ' ' || c = '\t' || c = '\n' || c = '\r' || c = '\x0b' || c = '\x0c'

/-- `b.startswith(a)` on character lists. -/
def startsWith : List Char → List Char → Bool
  | [], _ => true
  | _ :: _, [] => false
  | a :: as, b :: bs => a = b && startsWith as bs

/-- `re.match("^\[\s*SEC\s*\]", line)` for a section name `sec` free of
regex metacharacters and of leading/trailing whitespace (source line 63):
an opening bracket at line start, optional whitespace, the section name,
optional whitespace, a closing bracket; anything may follow. -/
def matchSectionHeader (sec : List Char) (line : List Char) : Bool :=
  match line with
  | '[' :: rest =>
    let r1 := rest.dropWhile isPySpace
    startsWith sec r1 &&
      (match (r1.drop sec.length).dropWhile isPySpace with
       | ']' :: _ => true
       | _ => false)
  | _ => false

/-- `line.startswith("[")`. -/
def startsBracket (line : List Char) : Bool :=
  match line with
  | '[' :: _ => true
  | _ => false

/-- Index of the first `#` in a line, `none` when absent
(`line.index('#')` with its `ValueError` branch, source lines 78-82). -/
def findHash : List Char → Option Nat
  | [] => none
  | c :: cs => if c = '#' then some 0 else (findHash cs).map (fun n => n + 1)

/-- Python's `str.ljust`: pad on the right with spaces up to width `w`,
never truncating. -/
def ljust (l : List Char) (w : Nat) : List Char :=
  l ++ List.replicate (w - l.length) ' '

/-- Rewriting of one matched key line (source lines 76-87): capture the
inline comment from the first `#` up to, but excluding, the final
character; replace the line by `key: value`, left-justified to one less
than the comment's start column; append a space, the comment, and a
newline.  Without a comment the column is zero and the comment empty. -/
def rewriteLine (key value line : List Char) : List Char :=
  match findHash line with
  | some i =>
    ljust (key ++ [':', ' '] ++ value) (i - 1) ++ [' '] ++ (line.drop i).dropLast ++ ['\n']
  | none =>
    (key ++ [':', ' '] ++ value) ++ [' '] ++ ['\n']

/-- Per-line step of the scan (source lines 72-90): clear `sectionfound`
on a bracket line, set it on a header match, and rewrite a line starting
with the key while it is set (clearing it again).  Returns the new flag,
whether this line was rewritten, and the output line. -/
def processLine (sec key value : List Char) (sf : Bool) (line : List Char) :
    Bool × Bool × List Char :=
  let sf1 := if sf && startsBracket line then false else sf
  let sf2 := if matchSectionHeader sec line then true else sf1
  if sf2 && startsWith key line then
    (false, true, rewriteLine key value line)
  else
    (sf2, false, line)

/-- Scan of one file's lines, threading `sectionfound` and accumulating
`dataout`; the middle component is `taskdone` for this file. -/
def processFile (sec key value : List Char) (sf : Bool) :
    List (List Char) → Bool × Bool × List (List Char)
  | [] => (sf, false, [])
  | l :: ls =>
    let r := processLine sec key value sf l
    let rest := processFile sec key value r.1 ls
    (rest.1, r.2.1 || rest.2.1, r.2.2 :: rest.2.2)

/-- Result of `ConfigRewrite`: either the first rewritten file was saved
(source lines 91-98) or the key was not found in the section (lines
99-100). -/
inductive RewriteOutcome
  | saved (filename : String)
  | notFound
deriving DecidableEq

/-- Scan of the directory: `sectionfound` is threaded from one file into
the next — the source initialises it once, before the file loop (line 61),
and never resets it per file — and the first file whose scan set
`taskdone` is written back, ending the whole call. -/
def scanFiles (sec key value : List Char) (sf : Bool) :
    List (String × List (List Char)) → List (String × List (List Char)) × RewriteOutcome
  | [] => ([], .notFound)
  | f :: rest =>
    let r := processFile sec key value sf f.2
    if r.2.1 then ((f.1, r.2.2) :: rest, .saved f.1)
    else
      let s := scanFiles sec key value r.1 rest
      (f :: s.1, s.2)

/-- `afcFunction.ConfigRewrite` (source lines 59-100) on a directory of
configuration files: returns the directory contents after the call and the
outcome. -/
def ConfigRewrite (sec key value : List Char) (files : List (String × List (List Char))) :
    List (String × List (List Char)) × RewriteOutcome :=
  scanFiles sec key value false files

/-! ## Helper lemmas about the scan -/

/-- A file none of whose lines matches the section header, scanned from
outside the section, is passed through unchanged: the flag stays cleared
and no line is rewritten. -/
theorem processFile_no_header (sec key value : List Char) (lines : List (List Char))
    (h : ∀ l ∈ lines, matchSectionHeader sec l = false) :
    processFile sec key value false lines = (false, false, lines) := by
  induction lines with
  | nil => rfl
  | cons l ls ih =>
    have hl : matchSectionHeader sec l = false := h l (by simp)
    have hls : ∀ x ∈ ls, matchSectionHeader sec x = false := fun x hx => h x (by simp [hx])
    simp [processFile, processLine, hl, ih hls]

/-- Appending after a hash-free list shifts the first-hash index by the
length of the first list. -/
theorem findHash_append_none (a b : List Char) (h : findHash a = none) :
    findHash (a ++ b) = (findHash b).map (fun n => n + a.length) := by
  induction a with
  | nil => cases hb : findHash b <;> simp [hb]
  | cons c cs ih =>
    simp only [findHash] at h
    by_cases hc : c = '#'
    · simp [hc] at h
    · rw [if_neg hc] at h
      have hcs : findHash cs = none := by
        cases hcs : findHash cs with
        | none => rfl
        | some j => rw [hcs] at h; simp at h
      have hstep : findHash ((c :: cs) ++ b) = (findHash (cs ++ b)).map (fun n => n + 1) := by
        rw [List.cons_append]
        simp [findHash, hc]
      rw [hstep, ih hcs]
      cases hb : findHash b with
      | none => simp [hb]
      | some v => simp [hb, List.length_cons]; omega

/-- A run of spaces contains no hash. -/
theorem findHash_replicate_space (n : Nat) : findHash (List.replicate n ' ') = none := by
  induction n with
  | zero => rfl
  | succ k ih => simp [List.replicate_succ, findHash, ih]

/-- The character at the first-hash index is a hash. -/
theorem findHash_drop (l : List Char) (i : Nat) (h : findHash l = some i) :
    l.drop i = '#' :: l.drop (i + 1) := by
  induction l generalizing i with
  | nil => simp [findHash] at h
  | cons c cs ih =>
    simp only [findHash] at h
    by_cases hc : c = '#'
    · rw [if_pos hc] at h
      have hi : i = 0 := by simpa using h.symm
      subst hi
      simp [hc]
    · rw [if_neg hc] at h
      cases hcs : findHash cs with
      | none => rw [hcs] at h; simp at h
      | some j =>
        rw [hcs] at h
        have hij : j + 1 = i := by simpa using h
        subst hij
        simpa [List.drop_succ_cons] using ih j hcs

/-- `ljust` pads exactly to the requested width when the input is no
longer than it. -/
theorem ljust_length_of_le (l : List Char) (w : Nat) (h : l.length ≤ w) :
    (ljust l w).length = w := by
  simp only [ljust, List.length_append, List.length_replicate]
  omega

/-- `ljust` keeps a hash-free list hash-free. -/
theorem findHash_ljust_none (l : List Char) (w : Nat) (h : findHash l = none) :
    findHash (ljust l w) = none := by
  rw [ljust, findHash_append_none l _ h, findHash_replicate_space]
  rfl

/-! ## Theorems for ConfigRewrite -/

/-- Claim C4, counterexample: in the line `speed: 5 # fast` the comment
starts at column 9, but rewriting the value to `1000` makes the new
`key: value` text longer than 8 characters, so `ljust` pads nothing and
the comment moves to column 12 instead of staying at column 9. -/
theorem config_comment_column_shift_cex :
    findHash "speed: 5 # fast\n".toList = some 9 ∧
    findHash (rewriteLine "speed".toList "1000".toList "speed: 5 # fast\n".toList) = some 12 := by
  decide

/-- Claim C4, amended: when the target line carries an inline comment
whose `#` sits at column `i` (not as the line's final character) and the
new `key: value` text — itself hash-free — is at most `i - 1` characters
long, the rewritten line keeps the `#` at column `i`; a longer new text
pushes the comment right instead (the source pads but never truncates). -/
theorem rewriteLine_preserves_comment_column (key value line : List Char) (i : Nat)
    (h1 : findHash line = some i)
    (h2 : findHash (key ++ [':', ' '] ++ value) = none)
    (h3 : key.length + 2 + value.length + 1 ≤ i)
    (h4 : i + 2 ≤ line.length) :
    findHash (rewriteLine key value line) = some i := by
  have hdrop := findHash_drop line i h1
  obtain ⟨x, t, hxt⟩ : ∃ x t, line.drop (i + 1) = x :: t := by
    cases hd : line.drop (i + 1) with
    | nil =>
      exfalso
      have hl := congrArg List.length hd
      simp [List.length_drop] at hl
      omega
    | cons x t => exact ⟨x, t, rfl⟩
  have hA : findHash (ljust (key ++ [':', ' '] ++ value) (i - 1)) = none :=
    findHash_ljust_none _ _ h2
  have hAlen : (ljust (key ++ [':', ' '] ++ value) (i - 1)).length = i - 1 := by
    apply ljust_length_of_le
    simp only [List.length_append, List.length_cons, List.length_nil]
    omega
  simp only [rewriteLine, h1]
  rw [hdrop, hxt]
  have hdl : ('#' :: x :: t).dropLast = '#' :: (x :: t).dropLast := rfl
  rw [hdl, List.append_assoc]
  have hfront : findHash (ljust (key ++ [':', ' '] ++ value) (i - 1) ++ [' ']) = none := by
    rw [findHash_append_none _ _ hA]
    rfl
  have hfrontlen : (ljust (key ++ [':', ' '] ++ value) (i - 1) ++ [' ']).length = i := by
    simp only [List.length_append, hAlen, List.length_cons, List.length_nil]
    omega
  rw [findHash_append_none _ _ hfront]
  have hC : findHash (('#' :: (x :: t).dropLast) ++ ['\n']) = some 0 := by
    simp [findHash]
  rw [hC]
  simp only [Option.map_some', hfrontlen]
  simp

/-- Witness for C4 at a concrete input: shortening `5000` to `9` pads the
value portion and the comment of `speed: 5000 # fast` stays at column 12. -/
theorem rewriteLine_preserves_comment_column_witness :
    findHash (rewriteLine "speed".toList "9".toList "speed: 5000 # fast\n".toList) = some 12 :=
  rewriteLine_preserves_comment_column "speed".toList "9".toList
    "speed: 5000 # fast\n".toList 12 (by decide) (by decide) (by decide) (by decide)

/-- Claim C5, counterexample: the section state reached at the end of one
file does carry over into the next file.  `a.cfg` ends inside `[sec]`
without containing the key; `b.cfg` contains no line matching the section
header, yet its key line is rewritten and the call reports `b.cfg` saved. -/
theorem config_section_state_carries_over_cex :
    ConfigRewrite "sec".toList "key".toList "9".toList
        [("a.cfg", ["[sec]\n".toList]), ("b.cfg", ["key: 1\n".toList])] =
      ([("a.cfg", ["[sec]\n".toList]), ("b.cfg", ["key: 9 \n".toList])], .saved "b.cfg") ∧
    matchSectionHeader "sec".toList "key: 1\n".toList = false := by
  decide

/-- Claim C5, amended: within a file, lines before the first line matching
the target section header are never rewritten and are copied verbatim when
the file is entered with the section flag cleared; but the flag is
initialised once for the whole directory scan, so the state reached at the
end of one file does carry over into the next file, and a file entered
with the flag set can have a key line rewritten without containing the
header. -/
theorem processFile_no_rewrite_before_header (sec key value : List Char)
    (pre post : List (List Char))
    (h : ∀ l ∈ pre, matchSectionHeader sec l = false) :
    processFile sec key value false (pre ++ post) =
      ((processFile sec key value false post).1,
       (processFile sec key value false post).2.1,
       pre ++ (processFile sec key value false post).2.2) := by
  induction pre with
  | nil => rfl
  | cons l ls ih =>
    have hl : matchSectionHeader sec l = false := h l (by simp)
    have hls : ∀ x ∈ ls, matchSectionHeader sec x = false := fun x hx => h x (by simp [hx])
    simp [processFile, processLine, hl, ih hls]

/-- Witness for C5 at a concrete input: a header-free leading line is
copied verbatim and the rewrite happens only after the header line. -/
theorem processFile_no_rewrite_before_header_witness :
    processFile "sec".toList "key".toList "9".toList false
        (["x: 1\n".toList] ++ ["[sec]\n".toList, "key: 2\n".toList]) =
      (false, true, ["x: 1\n".toList, "[sec]\n".toList, "key: 9 \n".toList]) :=
  (processFile_no_rewrite_before_header "sec".toList "key".toList "9".toList
      ["x: 1\n".toList] ["[sec]\n".toList, "key: 2\n".toList] (by decide)).trans (by decide)

/-- Claim C6, counterexample: no single file contains the target section
together with the target key (`x.cfg` has only the section, `y.cfg` only
the key — a fresh scan of either file alone rewrites nothing), yet because
the section flag leaks from `x.cfg` into `y.cfg`, the call rewrites
`y.cfg` and reports it saved instead of returning not-found with all files
intact. -/
theorem config_not_found_leak_cex :
    (processFile "tube".toList "len".toList "7".toList false ["[tube]\n".toList]).2.1 = false ∧
    (processFile "tube".toList "len".toList "7".toList false ["len: 5\n".toList]).2.1 = false ∧
    ConfigRewrite "tube".toList "len".toList "7".toList
        [("x.cfg", ["[tube]\n".toList]), ("y.cfg", ["len: 5\n".toList])] =
      ([("x.cfg", ["[tube]\n".toList]), ("y.cfg", ["len: 7 \n".toList])], .saved "y.cfg") := by
  decide

/-- Claim C6, amended: when no configuration file in the directory contains
any line matching the target section header, the call returns the normal
not-found outcome (no exception) and every file's content is identical to
its content before the call. -/
theorem configRewrite_section_absent_not_found (sec key value : List Char)
    (files : List (String × List (List Char)))
    (h : ∀ f ∈ files, ∀ l ∈ f.2, matchSectionHeader sec l = false) :
    ConfigRewrite sec key value files = (files, .notFound) := by
  unfold ConfigRewrite
  induction files with
  | nil => rfl
  | cons f fs ih =>
    have hf := processFile_no_header sec key value f.2 (h f (by simp))
    have hfs : ∀ g ∈ fs, ∀ l ∈ g.2, matchSectionHeader sec l = false :=
      fun g hg => h g (by simp [hg])
    simp [scanFiles, hf, ih hfs]

/-- Witness for C6 at a concrete input: a directory whose one file has the
key under a different section is left unchanged with a not-found outcome. -/
theorem configRewrite_section_absent_not_found_witness :
    ConfigRewrite "sec2".toList "key2".toList "9".toList
        [("a.cfg", ["[other]\n".toList, "key2: 1\n".toList])] =
      ([("a.cfg", ["[other]\n".toList, "key2: 1\n".toList])], .notFound) :=
  configRewrite_section_absent_not_found "sec2".toList "key2".toList "9".toList
    [("a.cfg", ["[other]\n".toList, "key2: 1\n".toList])] (by decide)

/-- Claim C7, counterexample: `f2.cfg` and `f3.cfg` each contain the
matching section and key (a fresh scan of each rewrites), `f1.cfg` does
not; yet the call rewrites `f1.cfg` — the section flag leaked out of
`f0.cfg` — so the rewritten file is not the first file containing a
matching section and key. -/
theorem config_first_match_violated_cex :
    (processFile "hub".toList "dist".toList "9".toList false
        ["[hub]\n".toList, "dist: 2\n".toList]).2.1 = true ∧
    (processFile "hub".toList "dist".toList "9".toList false
        ["[hub]\n".toList, "dist: 3\n".toList]).2.1 = true ∧
    (processFile "hub".toList "dist".toList "9".toList false ["dist: 1\n".toList]).2.1 = false ∧
    ConfigRewrite "hub".toList "dist".toList "9".toList
        [("f0.cfg", ["[hub]\n".toList]), ("f1.cfg", ["dist: 1\n".toList]),
         ("f2.cfg", ["[hub]\n".toList, "dist: 2\n".toList]),
         ("f3.cfg", ["[hub]\n".toList, "dist: 3\n".toList])] =
      ([("f0.cfg", ["[hub]\n".toList]), ("f1.cfg", ["dist: 9 \n".toList]),
        ("f2.cfg", ["[hub]\n".toList, "dist: 2\n".toList]),
        ("f3.cfg", ["[hub]\n".toList, "dist: 3\n".toList])], .saved "f1.cfg") := by
  decide

/-- Claim C7, amended: the scan writes at most one file and terminates
immediately after the first successful in-file rewrite, leaving every
later file unmodified; provided no file before the first matching file
contains a line matching the target section header (so no section state
leaks into them), the rewritten file is exactly the first file whose own
scan finds the section and key. -/
theorem configRewrite_first_match_saved (sec key value : List Char)
    (pre rest : List (String × List (List Char))) (fn : String) (f : List (List Char))
    (hpre : ∀ g ∈ pre, ∀ l ∈ g.2, matchSectionHeader sec l = false)
    (hf : (processFile sec key value false f).2.1 = true) :
    ConfigRewrite sec key value (pre ++ (fn, f) :: rest) =
      (pre ++ (fn, (processFile sec key value false f).2.2) :: rest, .saved fn) := by
  unfold ConfigRewrite
  induction pre with
  | nil => simp [scanFiles, hf]
  | cons g gs ih =>
    have hg := processFile_no_header sec key value g.2 (hpre g (by simp))
    have hgs : ∀ x ∈ gs, ∀ l ∈ x.2, matchSectionHeader sec l = false :=
      fun x hx => hpre x (by simp [hx])
    simp [scanFiles, hg, ih hgs]

/-- Witness for C7 at a concrete input: with a header-free file first, the
first matching file is rewritten, the scan stops there, and the later
matching file is untouched. -/
theorem configRewrite_first_match_saved_witness :
    ConfigRewrite "s".toList "k".toList "5".toList
        ([("p.cfg", ["p: 0\n".toList])] ++
          ("m.cfg", ["[s]\n".toList, "k: 1\n".toList]) ::
          [("q.cfg", ["[s]\n".toList, "k: 2\n".toList])]) =
      ([("p.cfg", ["p: 0\n".toList]), ("m.cfg", ["[s]\n".toList, "k: 5 \n".toList]),
        ("q.cfg", ["[s]\n".toList, "k: 2\n".toList])], .saved "m.cfg") :=
  (configRewrite_first_match_saved "s".toList "k".toList "5".toList
      [("p.cfg", ["p: 0\n".toList])] [("q.cfg", ["[s]\n".toList, "k: 2\n".toList])]
      "m.cfg" ["[s]\n".toList, "k: 1\n".toList] (by decide) (by decide)).trans (by decide)

/-! ## Theorems for SET_BOWDEN_LENGTH -/

/-- Claim C1, counterexample: with persisted baseline 200 and working value
205, the relative spec `+10` yields a new working value of 215 — the source
adds to the previous working value — and not 210 as the claim
(baseline + 10) states. -/
theorem set_bowden_length_relative_cex :
    (set_bowden_length ⟨200, 205⟩ (.signedRel 10)).afc_bowden_length = 215 ∧
    (set_bowden_length ⟨200, 205⟩ (.signedRel 10)).afc_bowden_length ≠ 200 + 10 := by
  decide

/-- Claim C1, amended: a relative spec `+N`/`-N` sets the working value to
the hub's previous working value plus `N` (not the persisted baseline plus
`N`); an absolute spec (a bare number `X`) sets the working value to `X`
regardless of prior state. -/
theorem set_bowden_length_relative_from_working (hub : HubState) (n x : Int) :
    (set_bowden_length hub (.signedRel n)).afc_bowden_length = hub.afc_bowden_length + n ∧
    (set_bowden_length hub (.bare x)).afc_bowden_length = x :=
  ⟨rfl, rfl⟩

/-- Claim C10: with the `LENGTH` parameter omitted, or blank after
stripping whitespace, the working Bowden length is reset to the persisted
configuration baseline `config_bowden_length`. -/
theorem set_bowden_length_blank_resets_to_baseline (hub : HubState) :
    (set_bowden_length hub .omitted).afc_bowden_length = hub.config_bowden_length ∧
    (set_bowden_length hub .blank).afc_bowden_length = hub.config_bowden_length :=
  ⟨rfl, rfl⟩

/-- Claim C9: calling `SET_BOWDEN_LENGTH` with no `HUB` parameter while no
lane is loaded does not produce the "no target hub" message: evaluating the
`elif` condition reads the attribute `current`, which is never assigned on
`afcFunction`, so the command dies with an unhandled `AttributeError`
instead. -/
theorem set_bowden_no_hub_attribute_error (currentLaneHub : String) :
    resolve_set_bowden_hub none none currentLaneHub = .attributeError :=
  rfl

/-! ## Theorems for the Bowden branch of CALIBRATE_AFC -/

/-- Claim C2: with a pre-tool start sensor configured (here together with a
post-tool sensor and a buffer), the source still takes the `else` branch of
line 459: it raises the configuration-insufficiency error and runs zero
calibration passes, although the claim says the calibration pass is run
whenever a pre-tool sensor is configured. -/
theorem calibrate_bowden_pretool_sensor_errors :
    calibrate_bowden_section (fun _ len => (len, true)) ⟨some "ts", some "te", some "buf"⟩ 450 =
      (.configError "Cannot calibrate with only post extruder sensor and no turtleneck buffer defined in config",
        450, 0) :=
  rfl

/-- Claim C8: when the lane has no pre-tool sensor, has a post-tool sensor
and has a buffer, the buffer is substituted as `tool_start` only for the
duration of the call; for every behaviour of the calibration pass —
success or failure, and whatever working length it produces — the final
sensor configuration equals the original (`tool_start = none` restored,
`tool_end` and `buffer_obj` untouched), and exactly one pass is run. -/
theorem calibrate_bowden_restores_tool_start (doPass : LaneSensors → Int → Int × Bool)
    (ls : LaneSensors) (hubLen : Int)
    (h1 : ls.tool_start = none) (h2 : ls.tool_end.isSome = true)
    (h3 : ls.buffer_obj.isSome = true) :
    calibrate_bowden_section doPass ls hubLen =
      (.calibrated ls, (doPass { ls with tool_start := some "buffer" } hubLen).1, 1) := by
  obtain ⟨ts, te, bo⟩ := ls
  simp only at h1
  subst h1
  simp [calibrate_bowden_section, h2, h3]

/-- Witness for C8 at a concrete input: a failing pass that also changes
the hub length still leaves the sensors exactly as they were. -/
theorem calibrate_bowden_restores_tool_start_witness :
    calibrate_bowden_section (fun _ l => (l + 7, false)) ⟨none, some "te", some "buf"⟩ 450 =
      (.calibrated ⟨none, some "te", some "buf"⟩, 457, 1) :=
  (calibrate_bowden_restores_tool_start (fun _ l => (l + 7, false))
      ⟨none, some "te", some "buf"⟩ 450 rfl rfl rfl).trans (by decide)

/-! ## Theorems for the LANE=all loop -/

/-- Claim C3: over a batch `pre ++ bad :: post` where every lane of `pre`
succeeds and `bad` fails, the loop runs the passes of `pre` and of `bad`
only — no lane of `post` is touched — and the aggregate at the point of
return is the initial header followed by exactly the messages of the
successful lanes in `pre`. -/
theorem calibrate_all_fail_fast (cal : String → Bool × String)
    (pre post : List String) (bad init : String)
    (hpre : ∀ l ∈ pre, (cal l).1 = true)
    (hbad : (cal bad).1 = false) :
    calibrate_all cal (pre ++ bad :: post) init =
      (pre ++ [bad], false, foldMsgs cal init pre) := by
  induction pre generalizing init with
  | nil =>
    simp [calibrate_all, foldMsgs, hbad]
  | cons l ls ih =>
    have h1 : (cal l).1 = true := hpre l (by simp)
    have h2 : ∀ x ∈ ls, (cal x).1 = true := fun x hx => hpre x (by simp [hx])
    simp [calibrate_all, foldMsgs, h1, ih _ h2]

/-- Example pass used in the witness for C3: every lane succeeds except
`lane3`. -/
def calEx : String → Bool × String := fun l => (l != "lane3", l ++ ";")

/-- Witness for C3: with two successful lanes before a failing one and an
untried lane after it, the loop stops at the failing lane and the aggregate
holds exactly the two successful messages. -/
theorem calibrate_all_fail_fast_witness :
    calibrate_all calEx (["lane1", "lane2"] ++ "lane3" :: ["lane4"]) "hdr " =
      (["lane1", "lane2", "lane3"], false, "hdr lane1;lane2;") :=
  (calibrate_all_fail_fast calEx ["lane1", "lane2"] ["lane4"] "lane3" "hdr "
      (by decide) (by decide)).trans (by decide)

end AFC
